import Mathlib

/-!
Verification of the SDP RAG ingestion pipeline and chat endpoint.

Python strings are modelled as lists of characters (`Str`), fallible calls as
`Except`, and the two external stores (the Vespa vector index and the Mongo
session collection) as explicit state threaded through the operations.
External collaborators that the repository only calls (the embedding service,
the language model, the file system, the web driver) are parameters of the
operations that use them.
-/

namespace SdpRag

/-- Python strings, modelled as lists of characters. -/
abbrev Str := List Char

/-- Metadata attached to a resource document
(`docs_ingestion.py`, `create_resource_document`). -/
structure ResourceMeta where
  source : Str
  file_type : Str
  file_size : Nat
deriving Repr, DecidableEq

/-- A document for the Vespa `resources` schema
(`docs_ingestion.py`, `create_resource_document`). -/
structure ResourceDoc (Emb : Type) where
  id : Str
  resource_id : Str
  title : Str
  resource_text : Str
  embedding : Emb
  metadata : ResourceMeta
deriving Repr, DecidableEq

/-- Metadata attached to a chunk document
(`docs_ingestion.py`, `chunk_document`). -/
structure ChunkMeta where
  chunk_index : Nat
  parent_resource_id : Str
deriving Repr, DecidableEq

/-- A document for the Vespa `chunks` schema
(`docs_ingestion.py`, `chunk_document`). -/
structure ChunkDoc (Emb : Type) where
  id : Str
  chunk_id : Str
  resource_id : Str
  chunk_text : Str
  embedding : Emb
  metadata : ChunkMeta
deriving Repr, DecidableEq

/-- Modelled from the spec: the Vespa vector store backing `VespaClient`
(`data_model/vespa_ai/vespa_client.py`, not under `src/`): two named
collections (`resources` and `chunks`) keyed by entry id, as in spec 4.4. -/
structure VespaStore (Emb : Type) where
  resources : Str → Option (ResourceDoc Emb)
  chunks : Str → Option (ChunkDoc Emb)

/-- Modelled from the spec: `VespaClient.insert_one("resources", doc)` is an
upsert idempotent by entry id — re-upserting the same id replaces the stored
entry (spec 4.4). -/
def insert_one (st : VespaStore Emb) (d : ResourceDoc Emb) : VespaStore Emb :=
  { st with resources := fun k => if k = d.id then some d else st.resources k }

/-- Modelled from the spec: upsert of a single chunk entry, keyed by its id
(spec 4.4). -/
def insertChunk (st : VespaStore Emb) (d : ChunkDoc Emb) : VespaStore Emb :=
  { st with chunks := fun k => if k = d.id then some d else st.chunks k }

/-- Modelled from the spec: `VespaClient.insert_many("chunks", docs)` upserts
the entries in order, idempotent by entry id (spec 4.4). -/
def insert_many (st : VespaStore Emb) (ds : List (ChunkDoc Emb)) : VespaStore Emb :=
  ds.foldl insertChunk st

/-- `os.path.basename`: the part of the path after the last `/`. -/
def basename (p : Str) : Str :=
  ((p.reverse.takeWhile (· ≠ '/')).reverse)

/-- The stem of `os.path.splitext`: the filename with its last
dot-extension removed (unchanged when there is no dot). -/
def splitextBase (f : Str) : Str :=
  if '.' ∈ f then ((f.reverse.dropWhile (· ≠ '.')).reverse).dropLast else f

/-- `DocumentIngestion.create_resource_document` (`docs_ingestion.py`):
the resource id is the digest of the content, the title comes from the file
name, the embedding comes from the embedding service; an embedding failure
propagates (the function re-raises). `idFor` abstracts `hashlib.md5(...)
.hexdigest()` and `embed` abstracts `Embedder.openai_embedding`. -/
def create_resource_document (idFor : Str → Str) (embed : Str → Except Err Emb)
    (file_path content : Str) : Except Err (ResourceDoc Emb) :=
  let resource_id := idFor content
  let title := splitextBase (basename file_path)
  match embed content with
  | .error e => .error e
  | .ok embedding =>
      .ok { id := resource_id, resource_id := resource_id, title := title,
            resource_text := content, embedding := embedding,
            metadata := { source := file_path, file_type := "text".data,
                          file_size := content.length } }

/-- Modelled from the spec: the text splitter used by `chunk_document`
(LangChain's `RecursiveCharacterTextSplitter`, a library dependency whose
code is not in the repository). Spec 2 and 4.1: it "splits raw document text
into overlapping windows under size/overlap constraints"; no chunk exceeds
`size` characters, consecutive chunks share up to `overlap` characters, text
shorter than `size` yields one chunk, empty text yields an empty sequence,
and identical inputs always yield identical output. Outside the contract
`0 <= overlap < size` the behaviour is unspecified; we return the whole text. -/
def splitTextGo (size overlap : Nat) : Nat → Str → List Str
  | 0, _ => []
  | fuel + 1, text =>
    if text.length = 0 then []
    else if text.length ≤ size then [text]
    else if overlap < size then
      text.take size :: splitTextGo size overlap fuel (text.drop (size - overlap))
    else [text]

/-- The splitter: each recursion step consumes at least one character
(`size - overlap ≥ 1` under the contract), so a fuel of `text.length` is
never exhausted and the fuel-zero arm is unreachable. -/
def split_text (text : Str) (size overlap : Nat) : List Str :=
  splitTextGo size overlap text.length text

/-- The loop body of `DocumentIngestion.chunk_document`: for each chunk text,
the chunk id is the digest of the parent resource id concatenated with the
chunk text, and the chunk is embedded; an embedding failure propagates. -/
def chunkDocsGo (idFor : Str → Str) (embed : Str → Except Err Emb)
    (resource_id : Str) : List Str → Nat → Except Err (List (ChunkDoc Emb))
  | [], _ => .ok []
  | chunk_text :: rest, i =>
    let chunk_id := idFor (resource_id ++ chunk_text)
    match embed chunk_text with
    | .error e => .error e
    | .ok embedding =>
      match chunkDocsGo idFor embed resource_id rest (i + 1) with
      | .error e => .error e
      | .ok docs =>
          .ok ({ id := chunk_id, chunk_id := chunk_id, resource_id := resource_id,
                 chunk_text := chunk_text, embedding := embedding,
                 metadata := { chunk_index := i, parent_resource_id := resource_id } } :: docs)

/-- `DocumentIngestion.chunk_document` (`docs_ingestion.py`): split the
content and build one chunk document per chunk. -/
def chunk_document (idFor : Str → Str) (embed : Str → Except Err Emb)
    (size overlap : Nat) (resource_id content : Str) :
    Except Err (List (ChunkDoc Emb)) :=
  chunkDocsGo idFor embed resource_id (split_text content size overlap) 0

/-- Processing of a single file inside `DocumentIngestion.ingest_documents`:
build the resource document, upsert it, build the chunk documents, upsert
them. On failure the error propagates and the upserts already performed
remain in the store. -/
def ingestFile (idFor : Str → Str) (embed : Str → Except Err Emb)
    (size overlap : Nat) (st : VespaStore Emb) (file_path content : Str) :
    Except Err Unit × VespaStore Emb :=
  match create_resource_document idFor embed file_path content with
  | .error e => (.error e, st)
  | .ok resource_doc =>
    let st1 := insert_one st resource_doc
    match chunk_document idFor embed size overlap resource_doc.id content with
    | .error e => (.error e, st1)
    | .ok chunk_docs => (.ok (), insert_many st1 chunk_docs)

/-- `DocumentIngestion.ingest_documents` (`docs_ingestion.py`): process the
files of the data directory in order inside one `try`; the first failure is
re-raised and ends the whole run, leaving the store as mutated so far.
Files are given as (path, content) pairs, abstracting
`get_files_to_ingest` and `read_file`. -/
def ingest_documents (idFor : Str → Str) (embed : Str → Except Err Emb)
    (size overlap : Nat) (files : List (Str × Str)) (st : VespaStore Emb) :
    Except Err Unit × VespaStore Emb :=
  match files with
  | [] => (.ok (), st)
  | (p, c) :: rest =>
    match ingestFile idFor embed size overlap st p c with
    | (.error e, st1) => (.error e, st1)
    | (.ok _, st1) => ingest_documents idFor embed size overlap rest st1

/-- A message stored in a session (`data_model/mongo_db/schemas/session.py`):
a role (`"user"` or `"assistant"`), the text content, and a timestamp
(timestamps are modelled as natural numbers). -/
structure Message where
  content : String
  role : String
  timestamp : Nat
deriving Repr, DecidableEq

/-- A persisted chat session (`data_model/mongo_db/schemas/session.py`). -/
structure Session where
  session_id : String
  messages : List Message
  user_id : String
  created_at : Nat
  updated_at : Nat
deriving Repr, DecidableEq

/-- `Session.find_one(Session.session_id == session_id)`: the first stored
session with the given id. The Mongo collection is modelled as a list of
sessions in insertion order. -/
def find_one (store : List Session) (sid : String) : Option Session :=
  store.find? (fun s => s.session_id == sid)

/-- `session.save()`: persist the updated session document, replacing the
stored one with the same session id. -/
def saveSession (store : List Session) (s : Session) : List Session :=
  store.map (fun t => if t.session_id == s.session_id then s else t)

/-- `ChatRequest` (`data_model/pydantic_models/chat.py`): a question and an
optional session id. -/
structure ChatRequest where
  question : String
  session_id : Option String
deriving Repr, DecidableEq

/-- Python truthiness of `request.session_id`: the branch `if not session_id:`
is taken for a missing id and for the empty string. -/
def blankSession : Option String → Bool
  | none => true
  | some s => s == ""

/-- An exception raised inside the `try` body of the `chat` endpoint: one of
the `HTTPException`s the body itself raises, or a failure escaping
`Chatbot.get_answer` (carried as exception type name and message). -/
inductive ChatExc where
  | httpException (statusCode : Nat) (detail : String)
  | modelFailure (excName msg : String)
deriving Repr, DecidableEq

/-- `type(e).__name__` for the modelled exceptions. -/
def excTypeName : ChatExc → String
  | .httpException _ _ => "HTTPException"
  | .modelFailure n _ => n

/-- `str(e)` for the modelled exceptions: starlette renders an
`HTTPException` as its status code, a colon and the detail. -/
def excMessage : ChatExc → String
  | .httpException code detail => toString code ++ ": " ++ detail
  | .modelFailure _ m => m

/-- The HTTP-level outcome of the `chat` endpoint: a `ChatResponse` with the
answer and the resolved session id, or an `HTTPException` response. -/
inductive ChatResult where
  | response (answer : String) (session_id : String)
  | httpError (statusCode : Nat) (detail : String)
deriving Repr, DecidableEq

/-- The session document the `chat` endpoint constructs for a fresh
conversation: `Session(session_id=..., user_id=..., messages=[Message(
content=question, role="user")])`. -/
def newSession (sid q uid : String) (now : Nat) : Session :=
  { session_id := sid,
    messages := [{ content := q, role := "user", timestamp := now }],
    user_id := uid, created_at := now, updated_at := now }

/-- `session.messages.append(Message(content=..., role=...))`. -/
def appendTurn (s : Session) (content role : String) (now : Nat) : Session :=
  { s with messages := s.messages ++ [{ content := content, role := role, timestamp := now }] }

/-- The `try` body of the `chat` endpoint (`src/api/app.py`, `chat`),
returning the outcome together with the session store as mutated so far
(database writes already performed survive a later exception). `llm`
abstracts `Chatbot.get_answer` (`src/chatbot.py` is not among the sources;
spec 4.7 and 6 make it a single fallible request/response call), `freshId`
is the `uuid.uuid4()` value, `now` the current time used for the
timestamps, and `userId` the string form of `current_user.user_id`. -/
def chatBody (llm : String → String → Except (String × String) String)
    (freshId : String) (now : Nat) (store : List Session)
    (req : ChatRequest) (userId : String) :
    Except ChatExc (String × String) × List Session :=
  if blankSession req.session_id then
    let sid := freshId
    let sess := newSession sid req.question userId now
    let store1 := store ++ [sess]
    match llm req.question sid with
    | .error e => (.error (.modelFailure e.1 e.2), store1)
    | .ok answer =>
      let sess2 := appendTurn sess answer "assistant" now
      (.ok (answer, sid), saveSession store1 sess2)
  else
    let sid := req.session_id.getD ""
    match find_one store sid with
    | none => (.error (.httpException 404 "Session not found"), store)
    | some sess =>
      if sess.user_id ≠ userId then
        (.error (.httpException 403 "Access denied to this session"), store)
      else
        let sess1 := appendTurn sess req.question "user" now
        let store1 := saveSession store sess1
        match llm req.question sid with
        | .error e => (.error (.modelFailure e.1 e.2), store1)
        | .ok answer =>
          let sess2 := appendTurn sess1 answer "assistant" now
          (.ok (answer, sid), saveSession store1 sess2)

/-- The `chat` endpoint (`src/api/app.py`): its `except Exception` handler
catches every exception raised in the body — including the `HTTPException`s
the body itself raises, since it has no prior `except HTTPException` clause —
and rewraps it as a status-500 `HTTPException` whose detail reports the
original exception type and message. -/
def chat (llm : String → String → Except (String × String) String)
    (freshId : String) (now : Nat) (store : List Session)
    (req : ChatRequest) (userId : String) : ChatResult × List Session :=
  match chatBody llm freshId now store req userId with
  | (.ok (answer, sid), store') => (.response answer sid, store')
  | (.error e, store') =>
      (.httpError 500 ("Error during chat: " ++ excTypeName e ++ ": " ++ excMessage e), store')

/-- Python `str.strip()`: remove leading and trailing whitespace. -/
def strip (s : Str) : Str :=
  ((s.dropWhile Char.isWhitespace).reverse.dropWhile Char.isWhitespace).reverse

/-- Python `str.lower()`. -/
def lower (s : Str) : Str := s.map Char.toLower

/-- `FileIngestion.extract_text_from_pdf` (`file_processor.py`): parse the
PDF (`readPdf` abstracts PyPDF2 and the page join), return the stripped
text; on an empty result or any exception return `None` instead of raising. -/
def extract_text_from_pdf (readPdf : Str → Except Err Str) (filepath : Str) : Option Str :=
  match readPdf filepath with
  | .error _ => none
  | .ok text => if strip text ≠ [] then some (strip text) else none

/-- `FileIngestion.extract_text_from_txt` (`file_processor.py`): read the
file, return the stripped text; on an empty result or any exception return
`None` instead of raising. -/
def extract_text_from_txt (readTxt : Str → Except Err Str) (filepath : Str) : Option Str :=
  match readTxt filepath with
  | .error _ => none
  | .ok text => if strip text ≠ [] then some (strip text) else none

/-- `FileIngestion.process_file` (`file_processor.py`): save the upload,
extract text by extension, write the extracted text back as a `.txt` file;
every failure — a save error, an unsupported extension, a failed or empty
extraction, a write error — yields `None` rather than an exception
(the outer `except` returns `None`). -/
def process_file (saveFile : Str → Str → Except Err Str)
    (readPdf readTxt : Str → Except Err Str)
    (writeTxt : Str → Str → Except Err Unit)
    (file_content filename : Str) : Option Str :=
  match saveFile file_content filename with
  | .error _ => none
  | .ok filepath =>
    let text? :=
      if (".pdf".data).isSuffixOf (lower filename) then
        extract_text_from_pdf readPdf filepath
      else if (".txt".data).isSuffixOf (lower filename) then
        extract_text_from_txt readTxt filepath
      else none
    match text? with
    | none => none
    | some text =>
      match writeTxt (splitextBase filename ++ ".txt".data) text with
      | .error _ => none
      | .ok _ => some text

/-- The line cleanup in `URLIngestion.extract_text_from_url`: strip each
line, drop the blank ones, rejoin with newlines. -/
def cleanLines (t : Str) : Str :=
  List.intercalate ['\n'] (((t.splitOn '\n').map strip).filter (fun l => l ≠ []))

/-- `URLIngestion.extract_text_from_url` (`url_to_txt.py`): fetch the page
(`fetchPage` abstracts the selenium driver, `getText` the BeautifulSoup text
extraction), clean the text; on an empty result or any exception return
`None` instead of raising. -/
def extract_text_from_url (fetchPage : Str → Except Err Str) (getText : Str → Str)
    (url : Str) : Option Str :=
  match fetchPage url with
  | .error _ => none
  | .ok page =>
    let text := cleanLines (getText page)
    if text ≠ [] then some text else none

/-- Concrete digest used in witnesses: the identity on character lists. -/
def idForW : Str → Str := fun s => s

/-- Concrete fixed-output-length digest used in witnesses: pad with zeros
and truncate to 32 characters. -/
def idFor32 : Str → Str := fun s => (s ++ List.replicate 32 '0').take 32

/-- Concrete always-succeeding embedder used in witnesses. -/
def embedW : Str → Except String (List Int) := fun _ => .ok []

/-- The empty vector store. -/
def st0W : VespaStore (List Int) := { resources := fun _ => none, chunks := fun _ => none }

/-- Concrete embedder failing exactly on the content of the second document
of `filesABC`. -/
def embedFailB : Str → Except String (List Int) :=
  fun t => if t = "B".data then .error "embedding service down" else .ok []

/-- A three-document ingestion run where embedding document 2 fails. -/
def filesABC : List (Str × Str) :=
  [("f1.txt".data, "A".data), ("f2.txt".data, "B".data), ("f3.txt".data, "C".data)]

/-- The run over `filesABC` from the empty store. -/
def runABC : Except String Unit × VespaStore (List Int) :=
  ingest_documents idForW embedFailB 5 1 filesABC st0W

/-- The store after successfully ingesting document 1 of `filesABC`. -/
def st1ABC : VespaStore (List Int) :=
  (ingest_documents idForW embedFailB 5 1 [("f1.txt".data, "A".data)] st0W).2

/-- A resource entry already present in the index before a run (same id "A"
the run re-derives, but older field values). -/
def preDocOld : ResourceDoc (List Int) :=
  { id := "A".data, resource_id := "A".data, title := "old".data,
    resource_text := "A".data, embedding := [],
    metadata := { source := "old.txt".data, file_type := "text".data, file_size := 1 } }

/-- A store in which the content-derived id of the document about to be
ingested is already indexed. -/
def stPre : VespaStore (List Int) :=
  { resources := fun k => if k = "A".data then some preDocOld else none,
    chunks := fun _ => none }

/-- Re-ingesting content whose id is already indexed. -/
def runRefresh : Except String Unit × VespaStore (List Int) :=
  ingest_documents idForW embedW 5 1 [("new.txt".data, "A".data)] stPre

/-- The store after one successful single-document run from the empty store. -/
def st1W : VespaStore (List Int) :=
  (ingest_documents idForW embedW 5 1 [("a.txt".data, "hello".data)] st0W).2

/-- The resource document produced by `create_resource_document` at the
concrete witness input (digest `idFor32`, embedder `embedW`). -/
def rdocW : ResourceDoc (List Int) :=
  { id := idFor32 "hello".data, resource_id := idFor32 "hello".data,
    title := "a".data, resource_text := "hello".data, embedding := [],
    metadata := { source := "a.txt".data, file_type := "text".data, file_size := 5 } }

/-- The chunk documents produced by `chunk_document` at the concrete witness
input (one chunk, since the text fits in one window). -/
def cdocsW : List (ChunkDoc (List Int)) :=
  [{ id := idFor32 ("r".data ++ "hello".data), chunk_id := idFor32 ("r".data ++ "hello".data),
     resource_id := "r".data, chunk_text := "hello".data, embedding := [],
     metadata := { chunk_index := 0, parent_resource_id := "r".data } }]

/-- Concrete language model call that succeeds. -/
def llmOkW : String → String → Except (String × String) String := fun _ _ => .ok "fine"

/-- Concrete language model call that fails. -/
def llmFailW : String → String → Except (String × String) String :=
  fun _ _ => .error ("OpenAIError", "model down")

/-- A stored session used by the chat witnesses. -/
def sessW : Session :=
  { session_id := "s1", messages := [], user_id := "7", created_at := 0, updated_at := 0 }

/-- A one-session store used by the chat witnesses. -/
def storeW : List Session := [sessW]

/-- Two stores with the same collections are equal. -/
theorem VespaStore.ext' {st st' : VespaStore Emb}
    (hr : st.resources = st'.resources) (hc : st.chunks = st'.chunks) : st = st' := by
  cases st; cases st'; simp_all

theorem insertChunk_resources (st : VespaStore Emb) (d : ChunkDoc Emb) :
    (insertChunk st d).resources = st.resources := rfl

theorem insert_one_chunks (st : VespaStore Emb) (d : ResourceDoc Emb) :
    (insert_one st d).chunks = st.chunks := rfl

theorem insert_many_resources (st : VespaStore Emb) (ds : List (ChunkDoc Emb)) :
    (insert_many st ds).resources = st.resources := by
  induction ds generalizing st with
  | nil => rfl
  | cons d ds ih => exact (ih (insertChunk st d)).trans (insertChunk_resources st d)

/-- The value stored under a chunk key after `insert_many` is the last entry of
the batch with that id, or the previous value when the batch never writes it. -/
theorem insert_many_chunks_apply (st : VespaStore Emb) (ds : List (ChunkDoc Emb)) (k : Str) :
    (insert_many st ds).chunks k =
      match ds.reverse.find? (fun d => d.id == k) with
      | some d => some d
      | none => st.chunks k := by
  induction ds generalizing st with
  | nil => rfl
  | cons d ds ih =>
    show (insert_many (insertChunk st d) ds).chunks k = _
    rw [ih, List.reverse_cons, List.find?_append]
    cases hfind : ds.reverse.find? (fun d' => d'.id == k) with
    | some d' => simp
    | none =>
      simp only [Option.or]
      show (if k = d.id then some d else st.chunks k) = _
      by_cases hk : k = d.id
      · simp [List.find?, hk]
      · have : (d.id == k) = false := beq_eq_false_iff_ne.mpr (fun h => hk h.symm)
        simp [List.find?, this, hk]

/-- `create_resource_document` succeeds exactly when the embedding call does,
and the resulting id is the digest of the content. -/
theorem create_resource_document_id (idFor : Str → Str) (embed : Str → Except Err Emb)
    (file_path content : Str) (rdoc : ResourceDoc Emb)
    (h : create_resource_document idFor embed file_path content = .ok rdoc) :
    rdoc.id = idFor content := by
  unfold create_resource_document at h
  cases hembed : embed content with
  | error e => rw [hembed] at h; exact absurd h (by simp)
  | ok emb => rw [hembed] at h; cases h; rfl

/-- Every chunk document built by the chunking loop has as id the digest of
the parent resource id concatenated with its own chunk text. -/
theorem chunkDocsGo_ids (idFor : Str → Str) (embed : Str → Except Err Emb)
    (resource_id : Str) (chunks : List Str) (i : Nat) (ds : List (ChunkDoc Emb))
    (h : chunkDocsGo idFor embed resource_id chunks i = .ok ds) :
    ∀ d ∈ ds, d.id = idFor (resource_id ++ d.chunk_text) := by
  induction chunks generalizing i ds with
  | nil =>
    unfold chunkDocsGo at h
    cases h
    intro d hd
    exact absurd hd (by simp)
  | cons c rest ih =>
    unfold chunkDocsGo at h
    cases hembed : embed c with
    | error e => rw [hembed] at h; exact absurd h (by simp)
    | ok emb =>
      rw [hembed] at h
      cases hrest : chunkDocsGo idFor embed resource_id rest (i + 1) with
      | error e => rw [hrest] at h; exact absurd h (by simp)
      | ok docs =>
        rw [hrest] at h
        cases h
        intro d hd
        rcases List.mem_cons.mp hd with hd | hd
        · subst hd; rfl
        · exact ih (i + 1) docs hrest d hd

theorem chunk_document_ids (idFor : Str → Str) (embed : Str → Except Err Emb)
    (size overlap : Nat) (resource_id content : Str) (ds : List (ChunkDoc Emb))
    (h : chunk_document idFor embed size overlap resource_id content = .ok ds) :
    ∀ d ∈ ds, d.id = idFor (resource_id ++ d.chunk_text) :=
  chunkDocsGo_ids idFor embed resource_id _ 0 ds h

/-- `ingestFile` written as one top-level case split (its definition with the
intermediate store named explicitly). -/
theorem ingestFile_eq (idFor : Str → Str) (embed : Str → Except Err Emb)
    (size overlap : Nat) (st : VespaStore Emb) (p c : Str) :
    ingestFile idFor embed size overlap st p c =
      match create_resource_document idFor embed p c with
      | .error e => (.error e, st)
      | .ok rdoc =>
        match chunk_document idFor embed size overlap rdoc.id c with
        | .error e => (.error e, insert_one st rdoc)
        | .ok cdocs => (.ok (), insert_many (insert_one st rdoc) cdocs) := rfl

theorem ingest_documents_cons (idFor : Str → Str) (embed : Str → Except Err Emb)
    (size overlap : Nat) (p c : Str) (rest : List (Str × Str)) (st : VespaStore Emb) :
    ingest_documents idFor embed size overlap ((p, c) :: rest) st =
      match ingestFile idFor embed size overlap st p c with
      | (.error e, st1) => (.error e, st1)
      | (.ok _, st1) => ingest_documents idFor embed size overlap rest st1 := rfl

/-- A run that succeeds on a prefix continues with the remaining files from
the store the prefix produced. -/
theorem ingest_prefix_ok (idFor : Str → Str) (embed : Str → Except Err Emb)
    (size overlap : Nat) (pre ys : List (Str × Str)) (st st1 : VespaStore Emb)
    (h : ingest_documents idFor embed size overlap pre st = (.ok (), st1)) :
    ingest_documents idFor embed size overlap (pre ++ ys) st =
      ingest_documents idFor embed size overlap ys st1 := by
  induction pre generalizing st with
  | nil =>
    unfold ingest_documents at h
    cases h
    rfl
  | cons pc pre ih =>
    obtain ⟨p, c⟩ := pc
    rw [List.cons_append, ingest_documents_cons]
    rw [ingest_documents_cons] at h
    cases hfile : ingestFile idFor embed size overlap st p c with
    | mk r st' =>
      rw [hfile] at h
      cases r with
      | error e => exact absurd h (by simp)
      | ok u => simpa using ih st' (by simpa using h)

/-- The outcome (success or the raised error) of a run never depends on the
prior contents of the vector store: ingestion reads nothing from the index. -/
theorem ingestFile_fst_indep (idFor : Str → Str) (embed : Str → Except Err Emb)
    (size overlap : Nat) (st st' : VespaStore Emb) (p c : Str) :
    (ingestFile idFor embed size overlap st p c).1 =
      (ingestFile idFor embed size overlap st' p c).1 := by
  rw [ingestFile_eq, ingestFile_eq]
  generalize (create_resource_document idFor embed p c : Except Err (ResourceDoc Emb)) = r1
  cases r1 with
  | error e => rfl
  | ok rdoc =>
    dsimp only
    generalize (chunk_document idFor embed size overlap rdoc.id c : Except Err (List (ChunkDoc Emb))) = r2
    cases r2 <;> rfl

theorem ingest_documents_fst_indep (idFor : Str → Str) (embed : Str → Except Err Emb)
    (size overlap : Nat) (files : List (Str × Str)) (st st' : VespaStore Emb) :
    (ingest_documents idFor embed size overlap files st).1 =
      (ingest_documents idFor embed size overlap files st').1 := by
  induction files generalizing st st' with
  | nil => rfl
  | cons pc rest ih =>
    obtain ⟨p, c⟩ := pc
    rw [ingest_documents_cons, ingest_documents_cons]
    have hfst := ingestFile_fst_indep idFor embed size overlap st st' p c
    cases hf : ingestFile idFor embed size overlap st p c with
    | mk r st1 =>
      cases hf' : ingestFile idFor embed size overlap st' p c with
      | mk r' st1' =>
        rw [hf, hf'] at hfst
        simp only at hfst
        subst hfst
        cases r with
        | error e => rfl
        | ok u => exact ih st1 st1'

theorem insert_one_resources_isSome (st : VespaStore Emb) (rdoc : ResourceDoc Emb) (k : Str)
    (h : (st.resources k).isSome = true) :
    (((insert_one st rdoc).resources) k).isSome = true := by
  unfold insert_one
  by_cases hk : k = rdoc.id <;> simp [hk, h]

/-- A key present in the resources collection stays present across any
further processing (upserts never remove entries). -/
theorem ingestFile_resources_mono (idFor : Str → Str) (embed : Str → Except Err Emb)
    (size overlap : Nat) (st : VespaStore Emb) (p c : Str) (k : Str)
    (h : (st.resources k).isSome = true) :
    (((ingestFile idFor embed size overlap st p c).2).resources k).isSome = true := by
  rw [ingestFile_eq]
  generalize (create_resource_document idFor embed p c : Except Err (ResourceDoc Emb)) = r1
  cases r1 with
  | error e => exact h
  | ok rdoc =>
    dsimp only
    generalize (chunk_document idFor embed size overlap rdoc.id c : Except Err (List (ChunkDoc Emb))) = r2
    cases r2 with
    | error e => exact insert_one_resources_isSome st rdoc k h
    | ok cdocs =>
      show (((insert_many (insert_one st rdoc) cdocs).resources) k).isSome = true
      rw [insert_many_resources]
      exact insert_one_resources_isSome st rdoc k h

theorem ingest_documents_resources_mono (idFor : Str → Str) (embed : Str → Except Err Emb)
    (size overlap : Nat) (files : List (Str × Str)) (st : VespaStore Emb) (k : Str)
    (h : (st.resources k).isSome = true) :
    (((ingest_documents idFor embed size overlap files st).2).resources k).isSome = true := by
  induction files generalizing st with
  | nil => exact h
  | cons pc rest ih =>
    obtain ⟨p, c⟩ := pc
    unfold ingest_documents
    cases hf : ingestFile idFor embed size overlap st p c with
    | mk r st1 =>
      have h1 : (st1.resources k).isSome = true := by
        have := ingestFile_resources_mono idFor embed size overlap st p c k h
        rwa [hf] at this
      cases r with
      | error e => exact h1
      | ok u => exact ih st1 h1

theorem find_one_session_id (store : List Session) (sid : String) (s : Session)
    (h : find_one store sid = some s) : s.session_id = sid := by
  have := List.find?_some h
  simpa using this

theorem find_one_append_left (store l : List Session) (sid : String) (s : Session)
    (h : find_one store sid = some s) : find_one (store ++ l) sid = some s := by
  unfold find_one at h ⊢
  rw [List.find?_append, h]
  rfl

theorem find_one_append_right (store l : List Session) (sid : String)
    (h : find_one store sid = none) : find_one (store ++ l) sid = find_one l sid := by
  unfold find_one at h ⊢
  rw [List.find?_append, h]
  rfl

/-- Saving a session whose id is not the one looked up does not change the
lookup result. -/
theorem find_one_save_other (store : List Session) (s' : Session) (sid : String)
    (h : s'.session_id ≠ sid) :
    find_one (saveSession store s') sid = find_one store sid := by
  induction store with
  | nil => rfl
  | cons t ts ih =>
    show find_one ((if t.session_id == s'.session_id then s' else t) :: saveSession ts s') sid
        = find_one (t :: ts) sid
    by_cases ht : t.session_id = s'.session_id
    · have h1 : (t.session_id == s'.session_id) = true := beq_iff_eq.mpr ht
      have h2 : (s'.session_id == sid) = false := beq_eq_false_iff_ne.mpr h
      have h3 : (t.session_id == sid) = false :=
        beq_eq_false_iff_ne.mpr (fun hc => h (ht ▸ hc))
      simpa [h1, h2, h3, find_one, List.find?_cons] using ih
    · have h1 : (t.session_id == s'.session_id) = false := beq_eq_false_iff_ne.mpr ht
      by_cases hts : t.session_id = sid
      · have h2 : (t.session_id == sid) = true := beq_iff_eq.mpr hts
        simp [h1, h2, find_one, List.find?_cons]
      · have h2 : (t.session_id == sid) = false := beq_eq_false_iff_ne.mpr hts
        simpa [h1, h2, find_one, List.find?_cons] using ih

/-- Saving a session with the id of a session the lookup currently finds
makes the lookup find the saved session. -/
theorem find_one_save_self (store : List Session) (sid : String) (sess s' : Session)
    (h : find_one store sid = some sess) (hid : s'.session_id = sess.session_id) :
    find_one (saveSession store s') sid = some s' := by
  have hsid : sess.session_id = sid := find_one_session_id store sid sess h
  induction store with
  | nil => simp [find_one] at h
  | cons t ts ih =>
    show find_one ((if t.session_id == s'.session_id then s' else t) :: saveSession ts s') sid
        = some s'
    by_cases hts : t.session_id = sid
    · have h2 : (t.session_id == sid) = true := beq_iff_eq.mpr hts
      unfold find_one at h
      rw [List.find?_cons, h2] at h
      have hteq : t = sess := by simpa using h
      have h1 : (t.session_id == s'.session_id) = true :=
        beq_iff_eq.mpr (by rw [hteq, ← hid])
      have h4 : (s'.session_id == sid) = true := beq_iff_eq.mpr (hid.trans hsid)
      simp [h1, h4, find_one, List.find?_cons]
    · have h2 : (t.session_id == sid) = false := beq_eq_false_iff_ne.mpr hts
      unfold find_one at h
      rw [List.find?_cons, h2] at h
      have h' : List.find? (fun s => s.session_id == sid) ts = some sess := h
      have h1 : (t.session_id == s'.session_id) = false := by
        refine beq_eq_false_iff_ne.mpr (fun hc => hts ?_)
        rw [hc, hid, hsid]
      simpa [h1, h2, find_one, List.find?_cons] using ih h'

theorem chat_snd (llm : String → String → Except (String × String) String)
    (freshId : String) (now : Nat) (store : List Session)
    (req : ChatRequest) (userId : String) :
    (chat llm freshId now store req userId).2 =
      (chatBody llm freshId now store req userId).2 := by
  unfold chat
  cases hcb : chatBody llm freshId now store req userId with
  | mk r s =>
    cases r with
    | ok v => rfl
    | error e => rfl

theorem chatBody_blank_fail (llm : String → String → Except (String × String) String)
    (freshId : String) (now : Nat) (store : List Session) (req : ChatRequest)
    (userId en em : String)
    (hb : blankSession req.session_id = true)
    (hl : llm req.question freshId = .error (en, em)) :
    chatBody llm freshId now store req userId =
      (.error (.modelFailure en em), store ++ [newSession freshId req.question userId now]) := by
  simp [chatBody, hb, hl]

theorem chatBody_blank_ok (llm : String → String → Except (String × String) String)
    (freshId : String) (now : Nat) (store : List Session) (req : ChatRequest)
    (userId ans : String)
    (hb : blankSession req.session_id = true)
    (hl : llm req.question freshId = .ok ans) :
    chatBody llm freshId now store req userId =
      (.ok (ans, freshId),
        saveSession (store ++ [newSession freshId req.question userId now])
          (appendTurn (newSession freshId req.question userId now) ans "assistant" now)) := by
  simp [chatBody, hb, hl]

theorem chatBody_notfound (llm : String → String → Except (String × String) String)
    (freshId : String) (now : Nat) (store : List Session) (req : ChatRequest)
    (userId : String)
    (hb : blankSession req.session_id = false)
    (hf : find_one store (req.session_id.getD "") = none) :
    chatBody llm freshId now store req userId =
      (.error (.httpException 404 "Session not found"), store) := by
  simp [chatBody, hb, hf]

theorem chatBody_wrong_user (llm : String → String → Except (String × String) String)
    (freshId : String) (now : Nat) (store : List Session) (req : ChatRequest)
    (userId : String) (sess : Session)
    (hb : blankSession req.session_id = false)
    (hf : find_one store (req.session_id.getD "") = some sess)
    (hu : sess.user_id ≠ userId) :
    chatBody llm freshId now store req userId =
      (.error (.httpException 403 "Access denied to this session"), store) := by
  simp [chatBody, hb, hf, hu]

theorem chatBody_known_fail (llm : String → String → Except (String × String) String)
    (freshId : String) (now : Nat) (store : List Session) (req : ChatRequest)
    (userId en em : String) (sess : Session)
    (hb : blankSession req.session_id = false)
    (hf : find_one store (req.session_id.getD "") = some sess)
    (hu : sess.user_id = userId)
    (hl : llm req.question (req.session_id.getD "") = .error (en, em)) :
    chatBody llm freshId now store req userId =
      (.error (.modelFailure en em),
        saveSession store (appendTurn sess req.question "user" now)) := by
  simp [chatBody, hb, hf, hu, hl]

theorem chatBody_known_ok (llm : String → String → Except (String × String) String)
    (freshId : String) (now : Nat) (store : List Session) (req : ChatRequest)
    (userId ans : String) (sess : Session)
    (hb : blankSession req.session_id = false)
    (hf : find_one store (req.session_id.getD "") = some sess)
    (hu : sess.user_id = userId)
    (hl : llm req.question (req.session_id.getD "") = .ok ans) :
    chatBody llm freshId now store req userId =
      (.ok (ans, req.session_id.getD ""),
        saveSession (saveSession store (appendTurn sess req.question "user" now))
          (appendTurn (appendTurn sess req.question "user" now) ans "assistant" now)) := by
  simp [chatBody, hb, hf, hu, hl]

theorem chat_of_body_error (llm : String → String → Except (String × String) String)
    (freshId : String) (now : Nat) (store store' : List Session)
    (req : ChatRequest) (userId : String) (e : ChatExc)
    (h : chatBody llm freshId now store req userId = (.error e, store')) :
    chat llm freshId now store req userId =
      (.httpError 500 ("Error during chat: " ++ excTypeName e ++ ": " ++ excMessage e), store') := by
  unfold chat
  rw [h]

theorem chat_of_body_ok (llm : String → String → Except (String × String) String)
    (freshId : String) (now : Nat) (store store' : List Session)
    (req : ChatRequest) (userId ans sid : String)
    (h : chatBody llm freshId now store req userId = (.ok (ans, sid), store')) :
    chat llm freshId now store req userId = (.response ans sid, store') := by
  unfold chat
  rw [h]

/-- **C1.** Calling `chat` with a non-empty but unknown `session_id` leaves
the session store untouched — no session is created — but the
`HTTPException(404, "Session not found")` raised inside the `try` body is
caught by the endpoint's own `except Exception` handler and rewrapped as a
status-500 error, instead of reaching the caller as the not-found kind. -/
theorem chat_unknown_session_rewrapped
    (llm : String → String → Except (String × String) String)
    (freshId : String) (now : Nat) (store : List Session) (q sid userId : String)
    (hne : sid ≠ "") (hfind : find_one store sid = none) :
    chat llm freshId now store { question := q, session_id := some sid } userId =
      (.httpError 500 "Error during chat: HTTPException: 404: Session not found", store) := by
  have hb : blankSession (some sid) = false := by
    simp [blankSession, hne]
  simp [chat, chatBody, hb, Option.getD, hfind, excTypeName, excMessage]
  rfl

/-- Witness for C1 at a concrete input: an empty store, session id
"nonexistent". -/
theorem chat_unknown_session_rewrapped_witness :
    chat llmOkW "u1" 0 [] { question := "hi", session_id := some "nonexistent" } "7" =
      (.httpError 500 "Error during chat: HTTPException: 404: Session not found", []) :=
  chat_unknown_session_rewrapped llmOkW "u1" 0 [] "hi" "nonexistent" "7" (by decide) rfl

/-- **C10.** A chat request without a session id inserts a new session
holding the question as a user turn into the store before the language
model is invoked; when the model call then fails, the endpoint returns only
a status-500 error (which carries no session id), yet the newly created
session persists in the store with its user turn. -/
theorem chat_new_session_persists
    (llm : String → String → Except (String × String) String)
    (freshId : String) (now : Nat) (store : List Session) (req : ChatRequest)
    (userId en em : String)
    (hblank : blankSession req.session_id = true)
    (hfresh : find_one store freshId = none)
    (hfail : llm req.question freshId = .error (en, em)) :
    chat llm freshId now store req userId =
      (.httpError 500 ("Error during chat: " ++ en ++ ": " ++ em),
        store ++ [{ session_id := freshId,
                    messages := [{ content := req.question, role := "user", timestamp := now }],
                    user_id := userId, created_at := now, updated_at := now }]) ∧
    find_one (chat llm freshId now store req userId).2 freshId =
      some { session_id := freshId,
             messages := [{ content := req.question, role := "user", timestamp := now }],
             user_id := userId, created_at := now, updated_at := now } := by
  have hrun : chat llm freshId now store req userId =
      (.httpError 500 ("Error during chat: " ++ en ++ ": " ++ em),
        store ++ [{ session_id := freshId,
                    messages := [{ content := req.question, role := "user", timestamp := now }],
                    user_id := userId, created_at := now, updated_at := now }]) := by
    simp [chat, chatBody, hblank, hfail, excTypeName, excMessage, newSession]
  refine ⟨hrun, ?_⟩
  rw [hrun]
  show find_one (store ++ [_]) freshId = _
  rw [find_one_append_right store _ freshId hfresh]
  simp [find_one, List.find?_cons]

/-- Witness for C10 at a concrete input: empty session id, failing model. -/
theorem chat_new_session_persists_witness :
    chat llmFailW "u1" 3 storeW { question := "hi", session_id := none } "7" =
      (.httpError 500 "Error during chat: OpenAIError: model down",
        storeW ++ [{ session_id := "u1",
                     messages := [{ content := "hi", role := "user", timestamp := 3 }],
                     user_id := "7", created_at := 3, updated_at := 3 }]) ∧
    find_one (chat llmFailW "u1" 3 storeW { question := "hi", session_id := none } "7").2 "u1" =
      some { session_id := "u1",
             messages := [{ content := "hi", role := "user", timestamp := 3 }],
             user_id := "7", created_at := 3, updated_at := 3 } :=
  chat_new_session_persists llmFailW "u1" 3 storeW { question := "hi", session_id := none }
    "7" "OpenAIError" "model down" rfl rfl rfl

/-- **C3.** When the language-model call fails during a chat request on an
existing session, the stored history afterwards holds the just-appended user
turn and no assistant turn, and the store is mutated in no other way (the
whole run equals the single save of that one session); a subsequent
successful call on the same session appends its own user turn and exactly
one new assistant turn. -/
theorem chat_model_failure_recoverable
    (llm llm' : String → String → Except (String × String) String)
    (freshId freshId' : String) (now now' : Nat) (store : List Session)
    (q q' sid userId en em ans : String) (sess : Session)
    (hne : sid ≠ "")
    (hfind : find_one store sid = some sess)
    (howner : sess.user_id = userId)
    (hfail : llm q sid = .error (en, em))
    (hok : llm' q' sid = .ok ans) :
    chat llm freshId now store { question := q, session_id := some sid } userId =
      (.httpError 500 ("Error during chat: " ++ en ++ ": " ++ em),
        saveSession store (appendTurn sess q "user" now)) ∧
    find_one (chat llm freshId now store { question := q, session_id := some sid } userId).2 sid =
      some (appendTurn sess q "user" now) ∧
    (appendTurn sess q "user" now).messages =
      sess.messages ++ [{ content := q, role := "user", timestamp := now }] ∧
    find_one (chat llm' freshId' now'
        (chat llm freshId now store { question := q, session_id := some sid } userId).2
        { question := q', session_id := some sid } userId).2 sid =
      some { sess with messages := sess.messages ++
          [{ content := q, role := "user", timestamp := now },
           { content := q', role := "user", timestamp := now' },
           { content := ans, role := "assistant", timestamp := now' }] } := by
  have hb : blankSession (some sid) = false := by simp [blankSession, hne]
  have hcb1 := chatBody_known_fail llm freshId now store
    { question := q, session_id := some sid } userId en em sess hb hfind howner hfail
  have hrun1 := chat_of_body_error llm freshId now store _
    { question := q, session_id := some sid } userId _ hcb1
  have hfind1 : find_one (saveSession store (appendTurn sess q "user" now)) sid =
      some (appendTurn sess q "user" now) :=
    find_one_save_self store sid sess _ hfind rfl
  have hcb2 := chatBody_known_ok llm' freshId' now'
    (saveSession store (appendTurn sess q "user" now))
    { question := q', session_id := some sid } userId ans
    (appendTurn sess q "user" now) hb hfind1 howner hok
  have hrun2 := chat_of_body_ok llm' freshId' now'
    (saveSession store (appendTurn sess q "user" now)) _
    { question := q', session_id := some sid } userId ans sid hcb2
  have hfind2 : find_one (saveSession (saveSession store (appendTurn sess q "user" now))
      (appendTurn (appendTurn sess q "user" now) q' "user" now')) sid =
      some (appendTurn (appendTurn sess q "user" now) q' "user" now') :=
    find_one_save_self _ sid (appendTurn sess q "user" now) _ hfind1 rfl
  have hfind3 : find_one (saveSession (saveSession (saveSession store
      (appendTurn sess q "user" now))
      (appendTurn (appendTurn sess q "user" now) q' "user" now'))
      (appendTurn (appendTurn (appendTurn sess q "user" now) q' "user" now')
        ans "assistant" now')) sid =
      some (appendTurn (appendTurn (appendTurn sess q "user" now) q' "user" now')
        ans "assistant" now') :=
    find_one_save_self _ sid (appendTurn (appendTurn sess q "user" now) q' "user" now') _
      hfind2 rfl
  refine ⟨hrun1, ?_, rfl, ?_⟩
  · rw [hrun1]
    exact hfind1
  · rw [hrun1]
    show find_one (chat llm' freshId' now'
      (saveSession store (appendTurn sess q "user" now))
      { question := q', session_id := some sid } userId).2 sid = _
    rw [hrun2]
    show find_one (saveSession _ _) sid = _
    rw [hfind3]
    simp [appendTurn, List.append_assoc]

/-- Witness for C3 at a concrete input: a one-session store, the model
failing on the first call and succeeding on the second. -/
theorem chat_model_failure_recoverable_witness :
    chat llmFailW "u1" 1 storeW { question := "q1", session_id := some "s1" } "7" =
      (.httpError 500 "Error during chat: OpenAIError: model down",
        saveSession storeW (appendTurn sessW "q1" "user" 1)) ∧
    find_one (chat llmFailW "u1" 1 storeW { question := "q1", session_id := some "s1" } "7").2 "s1" =
      some (appendTurn sessW "q1" "user" 1) ∧
    (appendTurn sessW "q1" "user" 1).messages =
      sessW.messages ++ [{ content := "q1", role := "user", timestamp := 1 }] ∧
    find_one (chat llmOkW "u2" 2
        (chat llmFailW "u1" 1 storeW { question := "q1", session_id := some "s1" } "7").2
        { question := "q2", session_id := some "s1" } "7").2 "s1" =
      some { sessW with messages := sessW.messages ++
          [{ content := "q1", role := "user", timestamp := 1 },
           { content := "q2", role := "user", timestamp := 2 },
           { content := "fine", role := "assistant", timestamp := 2 }] } :=
  chat_model_failure_recoverable llmFailW llmOkW "u1" "u2" 1 2 storeW
    "q1" "q2" "s1" "7" "OpenAIError" "model down" "fine" sessW
    (by decide) rfl rfl rfl rfl

/-- **C8.** Session histories are append-only under the `chat` endpoint: for
any stored session, after any chat request its stored messages are the old
messages followed by zero or more appended turns, each appended turn carrying
the role `"user"` or `"assistant"` (a `Message` always carries its text
content and a timestamp). -/
theorem chat_append_only
    (llm : String → String → Except (String × String) String)
    (freshId : String) (now : Nat) (store : List Session)
    (req : ChatRequest) (userId : String) (id0 : String) (old : Session)
    (hfresh : find_one store freshId = none)
    (hid : find_one store id0 = some old) :
    ∃ upd tail,
      find_one (chat llm freshId now store req userId).2 id0 = some upd ∧
      upd.messages = old.messages ++ tail ∧
      ∀ m ∈ tail, m.role = "user" ∨ m.role = "assistant" := by
  have hne0 : freshId ≠ id0 := by
    intro h
    rw [h, hid] at hfresh
    cases hfresh
  cases hb : blankSession req.session_id with
  | true =>
    cases hl : llm req.question freshId with
    | error e =>
      obtain ⟨en, em⟩ := e
      have hrun := chat_of_body_error llm freshId now store _ req userId _
        (chatBody_blank_fail llm freshId now store req userId en em hb hl)
      refine ⟨old, [], ?_, by simp, by simp⟩
      rw [hrun]
      exact find_one_append_left store _ id0 old hid
    | ok ans =>
      have hrun := chat_of_body_ok llm freshId now store _ req userId ans freshId
        (chatBody_blank_ok llm freshId now store req userId ans hb hl)
      refine ⟨old, [], ?_, by simp, by simp⟩
      rw [hrun]
      show find_one (saveSession _ _) id0 = some old
      rw [find_one_save_other _ _ id0 hne0]
      exact find_one_append_left store _ id0 old hid
  | false =>
    cases hf : find_one store (req.session_id.getD "") with
    | none =>
      have hrun := chat_of_body_error llm freshId now store _ req userId _
        (chatBody_notfound llm freshId now store req userId hb hf)
      exact ⟨old, [], by rw [hrun]; exact hid, by simp, by simp⟩
    | some sess =>
      by_cases hu : sess.user_id = userId
      · have hsid : sess.session_id = req.session_id.getD "" :=
          find_one_session_id _ _ _ hf
        cases hl : llm req.question (req.session_id.getD "") with
        | error e =>
          obtain ⟨en, em⟩ := e
          have hrun := chat_of_body_error llm freshId now store _ req userId _
            (chatBody_known_fail llm freshId now store req userId en em sess hb hf hu hl)
          by_cases hsame : id0 = req.session_id.getD ""
          · have holdeq : old = sess := by
              rw [hsame, hf] at hid
              exact (Option.some.inj hid).symm
            refine ⟨appendTurn sess req.question "user" now,
              [{ content := req.question, role := "user", timestamp := now }],
              ?_, by simp [appendTurn, holdeq], by simp⟩
            rw [hrun, hsame]
            exact find_one_save_self store _ sess _ hf rfl
          · refine ⟨old, [], ?_, by simp, by simp⟩
            rw [hrun]
            show find_one (saveSession store (appendTurn sess req.question "user" now)) id0 =
              some old
            have hother : (appendTurn sess req.question "user" now).session_id ≠ id0 := by
              show sess.session_id ≠ id0
              rw [hsid]
              exact fun hc => hsame hc.symm
            rw [find_one_save_other store (appendTurn sess req.question "user" now) id0 hother]
            exact hid
        | ok ans =>
          have hrun := chat_of_body_ok llm freshId now store _ req userId ans _
            (chatBody_known_ok llm freshId now store req userId ans sess hb hf hu hl)
          by_cases hsame : id0 = req.session_id.getD ""
          · have holdeq : old = sess := by
              rw [hsame, hf] at hid
              exact (Option.some.inj hid).symm
            have hfind1 : find_one (saveSession store (appendTurn sess req.question "user" now))
                (req.session_id.getD "") = some (appendTurn sess req.question "user" now) :=
              find_one_save_self store _ sess _ hf rfl
            refine ⟨appendTurn (appendTurn sess req.question "user" now) ans "assistant" now,
              [{ content := req.question, role := "user", timestamp := now },
               { content := ans, role := "assistant", timestamp := now }],
              ?_, by simp [appendTurn, holdeq], by simp⟩
            rw [hrun, hsame]
            exact find_one_save_self _ _ (appendTurn sess req.question "user" now) _ hfind1 rfl
          · refine ⟨old, [], ?_, by simp, by simp⟩
            rw [hrun]
            show find_one (saveSession (saveSession store
              (appendTurn sess req.question "user" now))
              (appendTurn (appendTurn sess req.question "user" now) ans "assistant" now))
              id0 = some old
            have hother1 : (appendTurn sess req.question "user" now).session_id ≠ id0 := by
              show sess.session_id ≠ id0
              rw [hsid]
              exact fun hc => hsame hc.symm
            have hother2 : (appendTurn (appendTurn sess req.question "user" now) ans
                "assistant" now).session_id ≠ id0 := hother1
            rw [find_one_save_other (saveSession store (appendTurn sess req.question "user" now))
              (appendTurn (appendTurn sess req.question "user" now) ans "assistant" now)
              id0 hother2]
            rw [find_one_save_other store (appendTurn sess req.question "user" now) id0 hother1]
            exact hid
      · have hrun := chat_of_body_error llm freshId now store _ req userId _
          (chatBody_wrong_user llm freshId now store req userId sess hb hf hu)
        exact ⟨old, [], by rw [hrun]; exact hid, by simp, by simp⟩

/-- Witness for C8 at a concrete input: a request on the stored session. -/
theorem chat_append_only_witness :
    ∃ upd tail,
      find_one (chat llmOkW "u1" 4 storeW { question := "hi", session_id := some "s1" } "7").2
        "s1" = some upd ∧
      upd.messages = sessW.messages ++ tail ∧
      ∀ m ∈ tail, m.role = "user" ∨ m.role = "assistant" :=
  chat_append_only llmOkW "u1" 4 storeW { question := "hi", session_id := some "s1" } "7"
    "s1" sessW rfl rfl

/-- Every chunk the splitter loop produces fits in `size` characters. -/
theorem splitTextGo_len (size overlap : Nat) (h : overlap < size) :
    ∀ fuel text, ∀ c ∈ splitTextGo size overlap fuel text, c.length ≤ size := by
  intro fuel
  induction fuel with
  | zero =>
    intro text c hc
    exact absurd hc (by simp [splitTextGo])
  | succ n ih =>
    intro text c hc
    unfold splitTextGo at hc
    by_cases h0 : text.length = 0
    · rw [if_pos h0] at hc
      exact absurd hc (by simp)
    · rw [if_neg h0] at hc
      by_cases h1 : text.length ≤ size
      · rw [if_pos h1] at hc
        rw [List.mem_singleton] at hc
        subst hc
        exact h1
      · rw [if_neg h1, if_pos h] at hc
        rcases List.mem_cons.mp hc with rfl | hc
        · simp [List.length_take]
        · exact ih (text.drop (size - overlap)) c hc

/-- Every chunk the splitter produces fits in `size` characters. -/
theorem split_text_len (size overlap : Nat) (h : overlap < size) :
    ∀ text, ∀ c ∈ split_text text size overlap, c.length ≤ size :=
  fun text => splitTextGo_len size overlap h text.length text

/-- **C7.** The chunker is deterministic — identical `(text, size, overlap)`
inputs yield the identical output sequence, the splitter being a pure
function — and under the contract `0 ≤ overlap < size` every produced chunk
has length at most `size`. -/
theorem split_text_deterministic_bounded (text : Str) (size overlap : Nat)
    (h : overlap < size) :
    split_text text size overlap = split_text text size overlap ∧
    ∀ c ∈ split_text text size overlap, c.length ≤ size :=
  ⟨rfl, split_text_len size overlap h text⟩

/-- Witness for C7 at a concrete input. -/
theorem split_text_deterministic_bounded_witness :
    split_text "hello world example".data 5 2 = split_text "hello world example".data 5 2 ∧
    ∀ c ∈ split_text "hello world example".data 5 2, c.length ≤ 5 :=
  split_text_deterministic_bounded "hello world example".data 5 2 (by decide)

/-- **C5.** Content addressing: the document id is the digest of the document
text; every chunk id is the digest of the parent resource id concatenated
with the chunk text; the digest being fixed-length, the document id has the
digest's output length; and for two distinct parent ids on which the digest
does not collide, the same chunk body yields two different chunk ids (by
right cancellation of concatenation). Determinism — the same ids on
re-ingestion of unchanged content — is inherent: the ids are pure functions
of the content. -/
theorem content_addressed_ids
    (idFor : Str → Str) (embed : Str → Except Err Emb) (size overlap : Nat)
    (hfix : ∀ s t : Str, (idFor s).length = (idFor t).length)
    (file_path content rid : Str) (rdoc : ResourceDoc Emb) (cdocs : List (ChunkDoc Emb))
    (hr : create_resource_document idFor embed file_path content = .ok rdoc)
    (hc : chunk_document idFor embed size overlap rid content = .ok cdocs)
    (p₁ p₂ body : Str)
    (hcoll : idFor (p₁ ++ body) = idFor (p₂ ++ body) → p₁ ++ body = p₂ ++ body)
    (hne : p₁ ≠ p₂) :
    rdoc.id = idFor content ∧
    rdoc.id.length = (idFor []).length ∧
    (∀ d ∈ cdocs, d.id = idFor (rid ++ d.chunk_text)) ∧
    idFor (p₁ ++ body) ≠ idFor (p₂ ++ body) := by
  have hid := create_resource_document_id idFor embed file_path content rdoc hr
  refine ⟨hid, ?_, chunk_document_ids idFor embed size overlap rid content cdocs hc, ?_⟩
  · rw [hid]
    exact hfix content []
  · intro hcontra
    exact hne (List.append_cancel_right (hcoll hcontra))

/-- Witness for C5 at a concrete input: the padded 32-character digest, a
successful embedding, and distinct parents sharing a chunk body. -/
theorem content_addressed_ids_witness :
    rdocW.id = idFor32 "hello".data ∧
    rdocW.id.length = (idFor32 []).length ∧
    (∀ d ∈ cdocsW, d.id = idFor32 ("r".data ++ d.chunk_text)) ∧
    idFor32 ("p".data ++ "x".data) ≠ idFor32 ("q".data ++ "x".data) :=
  content_addressed_ids idFor32 embedW 5 1
    (by
      intro s t
      simp [idFor32, List.length_take, List.length_append, List.length_replicate])
    "a.txt".data "hello".data "r".data rdocW cdocsW rfl rfl
    "p".data "q".data "x".data (by decide) (by decide)

/-- **C6.** Ingesting the same document text twice: both runs compute the
same document id and the same chunk ids (the ids are pure functions of path
and content, so the second run's writes target exactly the keys the first
run wrote), and the second run's upserts overwrite the first run's entries —
the store after the second run equals the store after the first, with
nothing duplicated. -/
theorem ingest_idempotent
    (idFor : Str → Str) (embed : Str → Except Err Emb) (size overlap : Nat)
    (p c : Str) (st st1 : VespaStore Emb)
    (h : ingest_documents idFor embed size overlap [(p, c)] st = (.ok (), st1)) :
    ingest_documents idFor embed size overlap [(p, c)] st1 = (.ok (), st1) := by
  rw [ingest_documents_cons, ingestFile_eq] at h ⊢
  cases hcr : (create_resource_document idFor embed p c : Except Err (ResourceDoc Emb)) with
  | error e =>
    rw [hcr] at h
    simp at h
  | ok rdoc =>
    rw [hcr] at h
    dsimp only at h ⊢
    cases hch : (chunk_document idFor embed size overlap rdoc.id c : Except Err (List (ChunkDoc Emb))) with
    | error e =>
      rw [hch] at h
      simp at h
    | ok cdocs =>
      rw [hch] at h
      dsimp only at h ⊢
      unfold ingest_documents at h ⊢
      have hst : st1 = insert_many (insert_one st rdoc) cdocs := by
        simpa using h.symm
      subst hst
      refine congrArg (Prod.mk (Except.ok ())) ?_
      apply VespaStore.ext'
      · funext k
        show (insert_many (insert_one (insert_many (insert_one st rdoc) cdocs) rdoc)
          cdocs).resources k = (insert_many (insert_one st rdoc) cdocs).resources k
        rw [insert_many_resources, insert_many_resources]
        by_cases hk : k = rdoc.id <;> simp [insert_one, insert_many_resources, hk]
      · funext k
        show (insert_many (insert_one (insert_many (insert_one st rdoc) cdocs) rdoc)
          cdocs).chunks k = (insert_many (insert_one st rdoc) cdocs).chunks k
        rw [insert_many_chunks_apply, insert_many_chunks_apply]
        cases hfind : cdocs.reverse.find? (fun d => d.id == k) with
        | some d => rfl
        | none =>
          show (insert_one (insert_many (insert_one st rdoc) cdocs) rdoc).chunks k = _
          rw [insert_one_chunks, insert_many_chunks_apply, hfind]

/-- Witness for C6 at a concrete input: re-running the same single-document
ingestion from the store the first run produced leaves it unchanged. -/
theorem ingest_idempotent_witness :
    ingest_documents idForW embedW 5 1 [("a.txt".data, "hello".data)] st1W = (.ok (), st1W) :=
  ingest_idempotent idForW embedW 5 1 "a.txt".data "hello".data st0W st1W rfl

/-- **C2 counterexample.** In a three-document run where the embedding
service fails on document 2, the run re-raises the error and document 3 is
never ingested: its resource id is absent from the final store (document 1's
is present). This falsifies the claim that the remaining documents still
reach Done. -/
theorem ingest_failure_aborts_cex :
    runABC.1 = .error "embedding service down" ∧
    (runABC.2.resources ("A".data)).isSome = true ∧
    runABC.2.resources ("C".data) = none :=
  ⟨rfl, rfl, rfl⟩

/-- **C2 amended.** Documents are processed sequentially inside one `try`:
when a document fails after a successfully ingested prefix, the run raises
that document's error and stops there — the final store is exactly the store
at the failure point, and the documents still pending are never processed
(the result does not depend on them at all). -/
theorem ingest_failure_aborts_pending
    (idFor : Str → Str) (embed : Str → Except Err Emb) (size overlap : Nat)
    (pre post : List (Str × Str)) (p c : Str) (st st1 : VespaStore Emb) (e : Err)
    (hpre : ingest_documents idFor embed size overlap pre st = (.ok (), st1))
    (hfail : (ingestFile idFor embed size overlap st1 p c).1 = .error e) :
    ingest_documents idFor embed size overlap (pre ++ (p, c) :: post) st =
      (.error e, (ingestFile idFor embed size overlap st1 p c).2) := by
  rw [ingest_prefix_ok idFor embed size overlap pre ((p, c) :: post) st st1 hpre]
  rw [ingest_documents_cons]
  cases hx : ingestFile idFor embed size overlap st1 p c with
  | mk r st2 =>
    rw [hx] at hfail
    simp only at hfail
    subst hfail
    rfl

/-- Witness for C2's amended theorem at the concrete three-document run. -/
theorem ingest_failure_aborts_pending_witness :
    ingest_documents idForW embedFailB 5 1
        ([("f1.txt".data, "A".data)] ++ ("f2.txt".data, "B".data) :: [("f3.txt".data, "C".data)])
        st0W =
      (.error "embedding service down",
        (ingestFile idForW embedFailB 5 1 st1ABC "f2.txt".data "B".data).2) :=
  ingest_failure_aborts_pending idForW embedFailB 5 1 [("f1.txt".data, "A".data)]
    [("f3.txt".data, "C".data)] "f2.txt".data "B".data st0W st1ABC
    "embedding service down" rfl rfl

/-- **C4 counterexample.** With the resource id of the incoming document
already present in the index, the run still processes the document and
re-upserts its entry — observable because the stored entry's title changes
to the one derived from the new file name. The claim that already-indexed
documents are skipped is false (and the code has no full-refresh flag). -/
theorem ingest_no_skip_cex :
    runRefresh.1 = .ok () ∧
    (stPre.resources ("A".data)).map (fun d => d.title) = some ("old".data) ∧
    (runRefresh.2.resources ("A".data)).map (fun d => d.title) = some ("new".data) :=
  ⟨rfl, rfl, rfl⟩

/-- A successful `ingestFile` leaves the document's content-derived id
present in the resources collection. -/
theorem ingestFile_ok_upserts (idFor : Str → Str) (embed : Str → Except Err Emb)
    (size overlap : Nat) (st st1 : VespaStore Emb) (p c : Str) (u : Unit)
    (hx : ingestFile idFor embed size overlap st p c = (.ok u, st1)) :
    (st1.resources (idFor c)).isSome = true := by
  rw [ingestFile_eq] at hx
  cases hcr : (create_resource_document idFor embed p c : Except Err (ResourceDoc Emb)) with
  | error e =>
    rw [hcr] at hx
    simp at hx
  | ok rdoc =>
    rw [hcr] at hx
    dsimp only at hx
    cases hch : (chunk_document idFor embed size overlap rdoc.id c : Except Err (List (ChunkDoc Emb))) with
    | error e =>
      rw [hch] at hx
      simp at hx
    | ok cdocs =>
      rw [hch] at hx
      dsimp only at hx
      have hst : st1 = insert_many (insert_one st rdoc) cdocs := by
        simpa using hx.symm
      have hidr : rdoc.id = idFor c :=
        create_resource_document_id idFor embed p c rdoc hcr
      rw [hst, insert_many_resources]
      show ((insert_one st rdoc).resources (idFor c)).isSome = true
      simp [insert_one, hidr]

/-- Every document of a successful run ends up upserted under its
content-derived id. -/
theorem ingest_documents_upserts (idFor : Str → Str) (embed : Str → Except Err Emb)
    (size overlap : Nat) (files : List (Str × Str)) (st : VespaStore Emb)
    (h : (ingest_documents idFor embed size overlap files st).1 = .ok ()) :
    ∀ pc ∈ files,
      (((ingest_documents idFor embed size overlap files st).2).resources (idFor pc.2)).isSome
        = true := by
  induction files generalizing st with
  | nil =>
    intro pc hpc
    exact absurd hpc (by simp)
  | cons hd rest ih =>
    obtain ⟨p, c⟩ := hd
    rw [ingest_documents_cons] at h ⊢
    cases hx : ingestFile idFor embed size overlap st p c with
    | mk r st1 =>
      rw [hx] at h
      cases r with
      | error e => simp at h
      | ok u =>
        dsimp only at h ⊢
        intro pc hpc
        rcases List.mem_cons.mp hpc with rfl | hmem
        · exact ingest_documents_resources_mono idFor embed size overlap rest st1
            (idFor c) (ingestFile_ok_upserts idFor embed size overlap st st1 p c u hx)
        · exact ih st1 h pc hmem

/-- **C4 amended.** No document is ever skipped: the ingestion control flow
never consults the index (the run's outcome is the same from any starting
store), and a successful run re-chunks, re-embeds and re-upserts every one
of its documents, leaving each present under its content-derived id. -/
theorem ingest_reprocesses_all
    (idFor : Str → Str) (embed : Str → Except Err Emb) (size overlap : Nat)
    (files : List (Str × Str)) (st st' : VespaStore Emb) :
    (ingest_documents idFor embed size overlap files st).1 =
      (ingest_documents idFor embed size overlap files st').1 ∧
    ((ingest_documents idFor embed size overlap files st).1 = .ok () →
      ∀ pc ∈ files,
        (((ingest_documents idFor embed size overlap files st).2).resources (idFor pc.2)).isSome
          = true) :=
  ⟨ingest_documents_fst_indep idFor embed size overlap files st st',
   fun h => ingest_documents_upserts idFor embed size overlap files st h⟩

/-- Witness for C4's amended theorem: the run over an index that already
holds the id behaves as over the empty index, and re-upserts the entry. -/
theorem ingest_reprocesses_all_witness :
    (ingest_documents idForW embedW 5 1 [("new.txt".data, "A".data)] stPre).1 =
      (ingest_documents idForW embedW 5 1 [("new.txt".data, "A".data)] st0W).1 ∧
    ((ingest_documents idForW embedW 5 1 [("new.txt".data, "A".data)] stPre).2.resources
        (idForW "A".data)).isSome = true := by
  obtain ⟨h1, h2⟩ :=
    ingest_reprocesses_all idForW embedW 5 1 [("new.txt".data, "A".data)] stPre st0W
  exact ⟨h1, h2 rfl ("new.txt".data, "A".data) (by simp)⟩

/-- **C9 counterexample.** `FileIngestion.process_file` swallows a failing
save (a raised exception) and returns `None` — a silently degraded value in
place of an error signal — falsifying the claim that every component-level
operation fails fast with a typed error. -/
theorem process_file_swallows_error_cex :
    process_file (fun _ _ => (Except.error "disk full" : Except String Str))
      (fun _ => Except.ok "p".data) (fun _ => Except.ok "t".data) (fun _ _ => Except.ok ())
      "x".data "notes.txt".data = none := rfl

/-- **C9 amended.** The propagation policy is mixed, not uniform: the
ingestion pipeline fails fast (an embedding failure propagates out of
`ingest_documents` as the raised error), but `FileIngestion.process_file`
and `URLIngestion.extract_text_from_url` swallow failures and return `None`
instead of raising. -/
theorem error_propagation_mixed
    (idFor : Str → Str) (embed : Str → Except Err Emb) (size overlap : Nat)
    (st : VespaStore Emb) (p c : Str) (e : Err)
    (hembed : embed c = .error e)
    (saveFile : Str → Str → Except Err2 Str) (readPdf readTxt : Str → Except Err2 Str)
    (writeTxt : Str → Str → Except Err2 Unit) (fc fn : Str) (e2 : Err2)
    (hsave : saveFile fc fn = .error e2)
    (fetchPage : Str → Except Err3 Str) (getText : Str → Str) (url : Str) (e3 : Err3)
    (hfetch : fetchPage url = .error e3) :
    (ingest_documents idFor embed size overlap [(p, c)] st).1 = .error e ∧
    process_file saveFile readPdf readTxt writeTxt fc fn = none ∧
    extract_text_from_url fetchPage getText url = none := by
  have hcr : create_resource_document idFor embed p c = .error e := by
    unfold create_resource_document
    rw [hembed]
  refine ⟨?_, ?_, ?_⟩
  · rw [ingest_documents_cons, ingestFile_eq, hcr]
  · unfold process_file
    rw [hsave]
  · unfold extract_text_from_url
    rw [hfetch]

/-- Witness for C9's amended theorem at concrete inputs. -/
theorem error_propagation_mixed_witness :
    (ingest_documents idForW embedFailB 5 1 [("f2.txt".data, "B".data)] st0W).1 =
      .error "embedding service down" ∧
    process_file (fun _ _ => Except.error "disk full") (fun _ => Except.ok "p".data)
      (fun _ => Except.ok "t".data) (fun _ _ => Except.ok ()) "x".data "a.txt".data = none ∧
    extract_text_from_url (fun _ => (Except.error "timeout" : Except String Str)) (fun s => s)
      "u".data = none :=
  error_propagation_mixed idForW embedFailB 5 1 st0W "f2.txt".data "B".data
    "embedding service down" rfl (fun _ _ => Except.error "disk full")
    (fun _ => Except.ok "p".data) (fun _ => Except.ok "t".data) (fun _ _ => Except.ok ())
    "x".data "a.txt".data "disk full" rfl (fun _ => Except.error "timeout") (fun s => s)
    "u".data "timeout" rfl

end SdpRag
